import Mathlib

/-!
Shallow embedding of `src/unsplash.py`: a small Unsplash API client with two
classes, `UnsplashImage` (URL-building from edit parameters) and `Unsplash`
(one HTTP GET accessor).  Python dictionaries are modelled as insertion-ordered
association lists, Python `None` as `Option`/a dedicated constructor, and
Python truthiness (`if width:`) explicitly.  The HTTP transport is abstracted
as a function from request URL and query parameters to a response.
-/

/-! ## Definitions: the `UnsplashImage` class -/

/-- A value stored in the `edits` dictionary of `UnsplashImage`: Python `None`,
an `int`, or a `str`. -/
inductive EVal where
  | null
  | int (n : Int)
  | str (s : String)
deriving DecidableEq, Repr

/-- Python truthiness of an edit value: `None`, `0` and `""` are falsy. -/
def EVal.truthy : EVal → Bool
  | .null => false
  | .int n => n != 0
  | .str s => s != ""

/-- Python f-string rendering of an edit value (`f'{v}'`). -/
def EVal.render : EVal → String
  | .null => "None"
  | .int n => toString n
  | .str s => s

/-- The `edits` dictionary: insertion-ordered keys, as in Python 3.7+ dicts. -/
abbrev Edits := List (String × EVal)

/-- Python dict assignment `d[k] = v`: updates the first occurrence of `k` in
place (keeping its position), or appends `(k, v)` at the end if `k` is absent. -/
def dictSet : Edits → String → EVal → Edits
  | [], k, v => [(k, v)]
  | (k', v') :: rest, k, v =>
      if k' = k then (k', v) :: rest else (k', v') :: dictSet rest k v

/-- Python dict lookup `d[k]` (as an `Option`): first occurrence of `k`. -/
def dictGet : Edits → String → Option EVal
  | [], _ => Option.none
  | (k', v') :: rest, k => if k' = k then Option.some v' else dictGet rest k

/-- State of `UnsplashImage`: the raw source URL, the `edits` dict, the crop
list (Python `None` or a list of tags), and the optional user name. -/
structure UnsplashImage where
  raw_url : String
  edits : Edits
  crop : Option (List String)
  user : Option String
deriving Repr

/-- `UnsplashImage.__init__(raw_url, user=None)`: the `edits` dict starts with
the four keys `width`, `height`, `format`, `fit` all mapped to `None`, and
`crop` starts as `None`. -/
def UnsplashImage.init (raw_url : String) (user : Option String) : UnsplashImage :=
  { raw_url := raw_url
    edits := [("width", EVal.null), ("height", EVal.null),
              ("format", EVal.null), ("fit", EVal.null)]
    crop := Option.none
    user := user }

/-- One guarded assignment of `adjust` for an `int` argument:
`if arg: self.edits[k] = arg` (Python truthiness: `None` and `0` skip). -/
def setIntIf (d : Edits) (k : String) (arg : Option Int) : Edits :=
  match arg with
  | Option.some n => if n != 0 then dictSet d k (EVal.int n) else d
  | Option.none => d

/-- One guarded assignment of `adjust` for a `str` argument:
`if arg: self.edits[k] = arg` (Python truthiness: `None` and `""` skip). -/
def setStrIf (d : Edits) (k : String) (arg : Option String) : Edits :=
  match arg with
  | Option.some t => if t != "" then dictSet d k (EVal.str t) else d
  | Option.none => d

/-- `UnsplashImage.adjust(width, height, format_, crop, fit)`: each argument is
stored only when truthy (`if width:` etc.), so `None`, `0`, `""` and `[]`
leave the corresponding field unchanged.  The assignments run in source order
width, height, format, crop, fit. -/
def UnsplashImage.adjust (s : UnsplashImage) (width height : Option Int)
    (format_ : Option String) (crop : Option (List String))
    (fit : Option String) : UnsplashImage :=
  { s with
    edits := setStrIf (setStrIf (setIntIf (setIntIf s.edits "width" width)
                "height" height) "format" format_) "fit" fit
    crop := match crop with
      | Option.some l => if !l.isEmpty then Option.some l else s.crop
      | Option.none => s.crop }

/-- The edit portion of the URL: iterate over the `edits` dict in insertion
order, skipping falsy values, appending `&key=value` for each truthy one. -/
def renderEdits : Edits → String
  | [] => ""
  | (k, v) :: rest =>
      (if v.truthy then "&" ++ k ++ "=" ++ v.render else "") ++ renderEdits rest

/-- The crop tags as rendered by the loop in `url`: each tag followed by `,`. -/
def renderTags : List String → String
  | [] => ""
  | t :: rest => t ++ "," ++ renderTags rest

/-- Python `str.strip(',')`: remove every leading and trailing `,` character. -/
def stripCommas (s : String) : String :=
  String.mk (((s.toList.dropWhile (· == ',')).reverse.dropWhile (· == ',')).reverse)

/-- `UnsplashImage.url` property: base URL plus `&key=value` for each truthy
edit (in dict order), then, when `crop` is truthy, `&crop=` plus each tag
followed by a comma, with the whole string stripped of edge commas. -/
def UnsplashImage.url (s : UnsplashImage) : String :=
  let image_url := s.raw_url ++ renderEdits s.edits
  match s.crop with
  | Option.none => image_url
  | Option.some [] => image_url
  | Option.some (t :: rest) =>
      stripCommas (image_url ++ "&crop=" ++ renderTags (t :: rest))

/-- `UnsplashImage.reset()`: a fresh all-`None` `edits` dict and `crop = []`
(an empty list, not `None`). -/
def UnsplashImage.reset (s : UnsplashImage) : UnsplashImage :=
  { s with
    edits := [("width", EVal.null), ("height", EVal.null),
              ("format", EVal.null), ("fit", EVal.null)]
    crop := Option.some [] }

/-! ## Definitions: the `Unsplash` HTTP client -/

/-- A JSON value, the result of `response.json()`. -/
inductive Json where
  | null
  | bool (b : Bool)
  | num (n : Int)
  | str (s : String)
  | arr (xs : List Json)
  | obj (fields : List (String × Json))

/-- Lookup in a JSON object field list (Python `d[k]`, `None` = `KeyError`). -/
def jfind : List (String × Json) → String → Option Json
  | [], _ => Option.none
  | (k', v) :: rest, k => if k' = k then Option.some v else jfind rest k

/-- Python subscript `j[k]` on a JSON value: a key lookup succeeds only on an
object that has the key; everything else is an error (`KeyError`/`TypeError`),
modelled as `none`. -/
def Json.get? : Json → String → Option Json
  | .obj fields, k => jfind fields k
  | _, _ => Option.none

/-- Two-level subscript `j[k1][k2]`. -/
def jget2 (j : Json) (k1 k2 : String) : Option Json :=
  (j.get? k1).bind (fun u => u.get? k2)

/-- An HTTP response as seen by the client: a status code and a parsed body. -/
structure HttpResponse where
  status : Nat
  body : Json

/-- `requests.Response.ok`: true iff `status_code < 400`. -/
def HttpResponse.ok (r : HttpResponse) : Bool := r.status < 400

/-- The abstract transport: `requests.get(request_url, params=params)`. -/
abbrev SendFn := String → List (String × String) → HttpResponse

/-- State of the `Unsplash` client. -/
structure Unsplash where
  access_key : String
  secret_key : String
  base_url : String

/-- The request URL built by `Unsplash.get`:
`{base_url}/{endpoint}/?client_id={access_key}`. -/
def Unsplash.requestUrl (c : Unsplash) (endpoint : String) : String :=
  c.base_url ++ "/" ++ endpoint ++ "/?client_id=" ++ c.access_key

/-- `Unsplash.get(endpoint, params)`: issue the GET; if `response.ok` return
the parsed JSON body, otherwise return the empty mapping `{}`. -/
def Unsplash.get (c : Unsplash) (send : SendFn) (endpoint : String)
    (params : List (String × String)) : Json :=
  let response := send (c.requestUrl endpoint) params
  if response.ok then response.body else Json.obj []

/-- The query parameters built by `get_random_image`: `query` and
`orientation` are added only when truthy (`if query:` etc.). -/
def randomImageParams (query : Option String) (orientation : Option String) :
    List (String × String) :=
  (match query with
    | Option.some q => if q != "" then [("query", q)] else []
    | Option.none => []) ++
  (match orientation with
    | Option.some o => if o != "" then [("orientation", o)] else []
    | Option.none => [])

/-- Extraction step of `get_random_image`: `UnsplashImage(response['urls']['raw'],
user=response['user']['name'])`.  A missing key is a `KeyError`, modelled as
`none`.  (Python performs no type check on the two extracted values; in the
random-photo response `urls.raw` and `user.name` are strings, and the
embedding requires string values at these keys.) -/
def imageFromResponse (response : Json) : Option UnsplashImage :=
  match jget2 response "urls" "raw", jget2 response "user" "name" with
  | Option.some (Json.str raw), Option.some (Json.str name) =>
      Option.some (UnsplashImage.init raw (Option.some name))
  | _, _ => Option.none

/-- `Unsplash.get_random_image(query, orientation)`: GET `photos/random` with
the built params, then construct the image from the response. -/
def Unsplash.get_random_image (c : Unsplash) (send : SendFn)
    (query : Option String) (orientation : Option String) :
    Option UnsplashImage :=
  imageFromResponse (c.get send "photos/random" (randomImageParams query orientation))

/-- A transport that returns a fixed response for every request. -/
def constSend (r : HttpResponse) : SendFn := fun _ _ => r

/-! ## Definitions: specification-side helper functions -/

/-- The stored `width`/`height` value after `adjust`, as a function of the old
stored value and the argument: a truthy (nonzero) argument overwrites,
`None` or `0` keeps the old value. -/
def updInt (old : Option EVal) (arg : Option Int) : Option EVal :=
  match arg with
  | Option.some n => if n != 0 then Option.some (EVal.int n) else old
  | Option.none => old

/-- The stored `format`/`fit` value after `adjust`: a truthy (nonempty string)
argument overwrites, `None` or `""` keeps the old value. -/
def updStr (old : Option EVal) (arg : Option String) : Option EVal :=
  match arg with
  | Option.some t => if t != "" then Option.some (EVal.str t) else old
  | Option.none => old

/-- The `crop` field after `adjust`: a truthy (nonempty list) argument
overwrites, `None` or `[]` keeps the old value. -/
def updCrop (old : Option (List String)) (arg : Option (List String)) :
    Option (List String) :=
  match arg with
  | Option.some l => if !l.isEmpty then Option.some l else old
  | Option.none => old

/-- `updInt` at the level of stored values (for states whose `edits` dict has
its canonical four-entry shape). -/
def updIntV (old : EVal) (arg : Option Int) : EVal :=
  match arg with
  | Option.some n => if n != 0 then EVal.int n else old
  | Option.none => old

/-- `updStr` at the level of stored values. -/
def updStrV (old : EVal) (arg : Option String) : EVal :=
  match arg with
  | Option.some t => if t != "" then EVal.str t else old
  | Option.none => old

/-- The `edits` dict has its canonical shape: exactly the four recognized keys,
in insertion order width, height, format, fit. -/
def canonicalEdits (d : Edits) : Prop :=
  ∃ vw vh vf vft, d = [("width", vw), ("height", vh), ("format", vf), ("fit", vft)]

/-- One argument tuple for an `adjust` call. -/
abbrev AdjustArgs :=
  Option Int × Option Int × Option String × Option (List String) × Option String

/-- Apply a sequence of `adjust` calls to a state. -/
def applyAdjusts (s : UnsplashImage) : List AdjustArgs → UnsplashImage
  | [] => s
  | a :: rest =>
      applyAdjusts (s.adjust a.1 a.2.1 a.2.2.1 a.2.2.2.1 a.2.2.2.2) rest

/-- The query-string fragment contributed by one edit field. -/
def fieldPart (k : String) (v : Option EVal) : String :=
  match v with
  | Option.some w => if w.truthy then "&" ++ k ++ "=" ++ w.render else ""
  | Option.none => ""

/-- Specification-side rendering of the URL: the base URL, then the fragments
of the fields in the fixed order width, height, format, fit, then the crop
block last; with the crop block present the whole string is stripped of edge
commas. -/
def specUrl (s : UnsplashImage) : String :=
  let base := s.raw_url
      ++ fieldPart "width" (dictGet s.edits "width")
      ++ fieldPart "height" (dictGet s.edits "height")
      ++ fieldPart "format" (dictGet s.edits "format")
      ++ fieldPart "fit" (dictGet s.edits "fit")
  match s.crop with
  | Option.none => base
  | Option.some [] => base
  | Option.some (t :: rest) => stripCommas (base ++ "&crop=" ++ renderTags (t :: rest))

/-- The list of keys of the `edits` dict, in order. -/
def edKeys (d : Edits) : List String := d.map Prod.fst

/-! ## Dictionary lemmas -/

theorem dictGet_dictSet_self (d : Edits) (k : String) (v : EVal) :
    dictGet (dictSet d k v) k = Option.some v := by
  induction d with
  | nil => simp [dictSet, dictGet]
  | cons p rest ih =>
    obtain ⟨k', v'⟩ := p
    by_cases h : k' = k <;> simp [dictSet, dictGet, h, ih]

theorem dictGet_dictSet_ne (d : Edits) (k k' : String) (v : EVal)
    (h : k' ≠ k) : dictGet (dictSet d k' v) k = dictGet d k := by
  induction d with
  | nil => simp [dictSet, dictGet, h]
  | cons p rest ih =>
    obtain ⟨k'', v''⟩ := p
    by_cases h2 : k'' = k'
    · subst h2
      simp [dictSet, dictGet, h]
    · by_cases h3 : k'' = k
      · subst h3
        simp [dictSet, dictGet, h2]
      · simp [dictSet, dictGet, h2, h3, ih]

theorem dictGet_setIntIf_self (d : Edits) (k : String) (arg : Option Int) :
    dictGet (setIntIf d k arg) k = updInt (dictGet d k) arg := by
  cases arg with
  | none => rfl
  | some n =>
    simp only [setIntIf, updInt]
    split_ifs <;> simp [dictGet_dictSet_self]

theorem dictGet_setStrIf_self (d : Edits) (k : String) (arg : Option String) :
    dictGet (setStrIf d k arg) k = updStr (dictGet d k) arg := by
  cases arg with
  | none => rfl
  | some t =>
    simp only [setStrIf, updStr]
    split_ifs <;> simp [dictGet_dictSet_self]

theorem dictGet_setIntIf_ne (d : Edits) (k k' : String) (arg : Option Int)
    (h : k' ≠ k) : dictGet (setIntIf d k' arg) k = dictGet d k := by
  cases arg with
  | none => rfl
  | some n =>
    simp only [setIntIf]
    split_ifs <;> simp [dictGet_dictSet_ne _ _ _ _ h]

theorem dictGet_setStrIf_ne (d : Edits) (k k' : String) (arg : Option String)
    (h : k' ≠ k) : dictGet (setStrIf d k' arg) k = dictGet d k := by
  cases arg with
  | none => rfl
  | some t =>
    simp only [setStrIf]
    split_ifs <;> simp [dictGet_dictSet_ne _ _ _ _ h]

/-! ## Shape lemmas for the canonical four-entry `edits` dict -/

theorem setIntIf_width_shape (vw vh vf vft : EVal) (w : Option Int) :
    setIntIf [("width", vw), ("height", vh), ("format", vf), ("fit", vft)] "width" w =
      [("width", updIntV vw w), ("height", vh), ("format", vf), ("fit", vft)] := by
  cases w with
  | none => rfl
  | some n =>
    simp only [setIntIf, updIntV]
    split_ifs <;> rfl

theorem setIntIf_height_shape (vw vh vf vft : EVal) (h : Option Int) :
    setIntIf [("width", vw), ("height", vh), ("format", vf), ("fit", vft)] "height" h =
      [("width", vw), ("height", updIntV vh h), ("format", vf), ("fit", vft)] := by
  cases h with
  | none => rfl
  | some n =>
    simp only [setIntIf, updIntV]
    split_ifs <;> rfl

theorem setStrIf_format_shape (vw vh vf vft : EVal) (f : Option String) :
    setStrIf [("width", vw), ("height", vh), ("format", vf), ("fit", vft)] "format" f =
      [("width", vw), ("height", vh), ("format", updStrV vf f), ("fit", vft)] := by
  cases f with
  | none => rfl
  | some t =>
    simp only [setStrIf, updStrV]
    split_ifs <;> rfl

theorem setStrIf_fit_shape (vw vh vf vft : EVal) (ft : Option String) :
    setStrIf [("width", vw), ("height", vh), ("format", vf), ("fit", vft)] "fit" ft =
      [("width", vw), ("height", vh), ("format", vf), ("fit", updStrV vft ft)] := by
  cases ft with
  | none => rfl
  | some t =>
    simp only [setStrIf, updStrV]
    split_ifs <;> rfl

theorem adjust_edits_shape (s : UnsplashImage) (vw vh vf vft : EVal)
    (hw : s.edits = [("width", vw), ("height", vh), ("format", vf), ("fit", vft)])
    (w h : Option Int) (f : Option String) (c : Option (List String))
    (ft : Option String) :
    (s.adjust w h f c ft).edits =
      [("width", updIntV vw w), ("height", updIntV vh h),
       ("format", updStrV vf f), ("fit", updStrV vft ft)] := by
  simp only [UnsplashImage.adjust, hw, setIntIf_width_shape, setIntIf_height_shape,
    setStrIf_format_shape, setStrIf_fit_shape]

theorem applyAdjusts_canonical (l : List AdjustArgs) (s : UnsplashImage)
    (hs : canonicalEdits s.edits) : canonicalEdits (applyAdjusts s l).edits := by
  induction l generalizing s with
  | nil => exact hs
  | cons a rest ih =>
    obtain ⟨vw, vh, vf, vft, hw⟩ := hs
    exact ih _ ⟨_, _, _, _, adjust_edits_shape _ _ _ _ _ hw _ _ _ _ _⟩

theorem edKeys_four_canonical (d : Edits)
    (h : edKeys d = ["width", "height", "format", "fit"]) : canonicalEdits d := by
  rcases d with _ | ⟨p1, d⟩
  · simp [edKeys] at h
  rcases d with _ | ⟨p2, d⟩
  · simp [edKeys] at h
  rcases d with _ | ⟨p3, d⟩
  · simp [edKeys] at h
  rcases d with _ | ⟨p4, d⟩
  · simp [edKeys] at h
  rcases d with _ | ⟨p5, d⟩
  · simp only [edKeys, List.map] at h
    obtain ⟨h1, h2, h3, h4⟩ := by simpa using h
    exact ⟨p1.2, p2.2, p3.2, p4.2, by simp [← h1, ← h2, ← h3, ← h4]⟩
  · simp [edKeys] at h

theorem url_eq_specUrl_of_canonical (s : UnsplashImage)
    (hs : canonicalEdits s.edits) : s.url = specUrl s := by
  obtain ⟨vw, vh, vf, vft, hw⟩ := hs
  obtain ⟨raw, ed, cr, us⟩ := s
  simp only at hw
  subst hw
  cases cr with
  | none =>
    simp [UnsplashImage.url, specUrl, renderEdits, fieldPart, dictGet,
      String.append_assoc, String.append_empty]
  | some l =>
    cases l with
    | nil =>
      simp [UnsplashImage.url, specUrl, renderEdits, fieldPart, dictGet,
        String.append_assoc, String.append_empty]
    | cons t rest =>
      simp [UnsplashImage.url, specUrl, renderEdits, fieldPart, dictGet,
        String.append_assoc, String.append_empty]

theorem renderEdits_null (d : Edits) (hd : ∀ kv ∈ d, kv.2 = EVal.null) :
    renderEdits d = "" := by
  induction d with
  | nil => rfl
  | cons p rest ih =>
    obtain ⟨k, v⟩ := p
    have hp : v = EVal.null := hd (k, v) (by simp)
    subst hp
    simpa [renderEdits, EVal.truthy] using ih (fun kv hkv => hd kv (by simp [hkv]))

theorem renderEdits_filter_truthy (d : Edits) :
    renderEdits d = renderEdits (d.filter (fun kv => kv.2.truthy)) := by
  induction d with
  | nil => rfl
  | cons p rest ih =>
    obtain ⟨k, v⟩ := p
    by_cases hv : v.truthy <;>
      simp [renderEdits, List.filter_cons, hv, ← ih, String.empty_append]

/-! ## Claim theorems -/

/-- C1 (amended): each field of an `UnsplashImage` after `adjust` is the truthy
argument when one is given, and the previously stored value otherwise: `None`,
`0`, `""` and `[]` arguments leave the field unchanged, so a null argument
never erases a value, but a non-null falsy argument does not overwrite either. -/
theorem adjust_truthy_override (s : UnsplashImage) (w h : Option Int)
    (f : Option String) (c : Option (List String)) (ft : Option String) :
    dictGet (s.adjust w h f c ft).edits "width" = updInt (dictGet s.edits "width") w ∧
    dictGet (s.adjust w h f c ft).edits "height" = updInt (dictGet s.edits "height") h ∧
    dictGet (s.adjust w h f c ft).edits "format" = updStr (dictGet s.edits "format") f ∧
    dictGet (s.adjust w h f c ft).edits "fit" = updStr (dictGet s.edits "fit") ft ∧
    (s.adjust w h f c ft).crop = updCrop s.crop c := by
  refine ⟨?_, ?_, ?_, ?_, ?_⟩
  · simp only [UnsplashImage.adjust]
    rw [dictGet_setStrIf_ne _ _ _ _ (by decide),
        dictGet_setStrIf_ne _ _ _ _ (by decide),
        dictGet_setIntIf_ne _ _ _ _ (by decide),
        dictGet_setIntIf_self]
  · simp only [UnsplashImage.adjust]
    rw [dictGet_setStrIf_ne _ _ _ _ (by decide),
        dictGet_setStrIf_ne _ _ _ _ (by decide),
        dictGet_setIntIf_self,
        dictGet_setIntIf_ne _ _ _ _ (by decide)]
  · simp only [UnsplashImage.adjust]
    rw [dictGet_setStrIf_ne _ _ _ _ (by decide),
        dictGet_setStrIf_self,
        dictGet_setIntIf_ne _ _ _ _ (by decide),
        dictGet_setIntIf_ne _ _ _ _ (by decide)]
  · simp only [UnsplashImage.adjust]
    rw [dictGet_setStrIf_self,
        dictGet_setStrIf_ne _ _ _ _ (by decide),
        dictGet_setIntIf_ne _ _ _ _ (by decide),
        dictGet_setIntIf_ne _ _ _ _ (by decide)]
  · simp only [UnsplashImage.adjust, updCrop]

/-- C1 counterexample: the argument `width = 0` is non-null, yet a second
`adjust` call passing it does not overwrite the previously stored width 100,
refuting the claim that every non-null argument overwrites the field. -/
theorem adjust_nonnull_zero_ignored_cex :
    (((UnsplashImage.init "b" Option.none).adjust
        (Option.some 100) Option.none Option.none Option.none Option.none).adjust
        (Option.some 0) Option.none Option.none Option.none Option.none).edits =
      [("width", EVal.int 100), ("height", EVal.null),
       ("format", EVal.null), ("fit", EVal.null)] ∧
    (Option.some (0 : Int)) ≠ Option.none ∧ EVal.int 100 ≠ EVal.int 0 := by
  decide

/-- C4 (amended): for every state reachable from construction by any sequence
of `adjust` calls, `url` renders the set fields in the fixed order width,
height, format, fit, then crop last, each set field as `&key=value` and the
crop block as `&crop=` plus the tags joined by commas; when the crop block is
present the entire string is additionally stripped of leading and trailing
commas (for base URLs without edge commas this changes nothing).  The spec's
example renders exactly as claimed. -/
theorem url_field_order (base : String) (user : Option String)
    (l : List AdjustArgs) :
    (applyAdjusts (UnsplashImage.init base user) l).url =
      specUrl (applyAdjusts (UnsplashImage.init base user) l) ∧
    ((UnsplashImage.init "https://img.example/x" Option.none).adjust
        (Option.some 100) Option.none Option.none
        (Option.some ["faces", "top"]) Option.none).url =
      "https://img.example/x&width=100&crop=faces,top" := by
  refine ⟨url_eq_specUrl_of_canonical _
    (applyAdjusts_canonical _ _ ⟨_, _, _, _, rfl⟩), by decide⟩

/-- C4 counterexample: with base URL `",x"` (which ends up stripped) and a
non-empty crop, the rendered URL is not the base URL followed by the appended
fragments: the leading comma of the base URL is removed. -/
theorem url_not_plain_append_cex :
    ((UnsplashImage.init ",x" Option.none).adjust Option.none Option.none
        Option.none (Option.some ["faces"]) Option.none).url = "x&crop=faces" ∧
    ((UnsplashImage.init ",x" Option.none).adjust Option.none Option.none
        Option.none (Option.some ["faces"]) Option.none).url ≠
      ",x" ++ "&crop=" ++ "faces" := by
  decide

/-- C6: with all four edit fields unset and crop unset or the empty sequence,
`url` returns the base URL unchanged — for a freshly constructed image, after
`reset()` regardless of prior edits, and for any state of that form. -/
theorem url_no_edits (base : String) (user : Option String) (s : UnsplashImage)
    (d : Edits) (cr : Option (List String)) (u : Option String)
    (hd : ∀ kv ∈ d, kv.2 = EVal.null)
    (hcr : cr = Option.none ∨ cr = Option.some []) :
    (UnsplashImage.init base user).url = base ∧
    s.reset.url = s.raw_url ∧
    UnsplashImage.url ⟨base, d, cr, u⟩ = base := by
  refine ⟨?_, ?_, ?_⟩
  · simp [UnsplashImage.init, UnsplashImage.url, renderEdits, EVal.truthy,
      String.append_empty]
  · simp [UnsplashImage.reset, UnsplashImage.url, renderEdits, EVal.truthy,
      String.append_empty]
  · rcases hcr with h | h <;> subst h <;>
      simp [UnsplashImage.url, renderEdits_null d hd, String.append_empty]

/-- C6 witness at concrete inputs. -/
theorem url_no_edits_witness :
    (UnsplashImage.init "b" Option.none).url = "b" ∧
    (UnsplashImage.init "c" Option.none).reset.url =
      (UnsplashImage.init "c" Option.none).raw_url ∧
    UnsplashImage.url ⟨"b", [], Option.none, Option.none⟩ = "b" :=
  url_no_edits "b" Option.none (UnsplashImage.init "c" Option.none) []
    Option.none Option.none (by simp) (Or.inl rfl)

/-- C7: `reset` sets all four edit fields back to `None` and sets `crop` to the
empty list, which differs from the `None` value `crop` has at construction. -/
theorem reset_state (s : UnsplashImage) (base : String) (user : Option String) :
    s.reset.edits = [("width", EVal.null), ("height", EVal.null),
                     ("format", EVal.null), ("fit", EVal.null)] ∧
    s.reset.crop = Option.some [] ∧
    (UnsplashImage.init base user).crop = Option.none ∧
    Option.some ([] : List String) ≠ (Option.none : Option (List String)) := by
  refine ⟨rfl, rfl, rfl, by decide⟩

/-- C8: the `edits` dict contains exactly the four recognized keys at
construction, after any `adjust` call (assuming the invariant held before),
and after `reset`; and rendering ignores unset (falsy) entries: the rendered
edit string equals the rendering of the truthy entries alone.  (`url` itself
is a pure function of the state, so reading it preserves every field.) -/
theorem edits_keys_invariant (base : String) (user : Option String)
    (s : UnsplashImage) (w h : Option Int) (f : Option String)
    (c : Option (List String)) (ft : Option String) (d : Edits) :
    edKeys (UnsplashImage.init base user).edits =
      ["width", "height", "format", "fit"] ∧
    (edKeys s.edits = ["width", "height", "format", "fit"] →
      edKeys (s.adjust w h f c ft).edits = ["width", "height", "format", "fit"]) ∧
    edKeys s.reset.edits = ["width", "height", "format", "fit"] ∧
    renderEdits d = renderEdits (d.filter (fun kv => kv.2.truthy)) := by
  refine ⟨rfl, ?_, rfl, renderEdits_filter_truthy d⟩
  intro hk
  obtain ⟨vw, vh, vf, vft, hw⟩ := edKeys_four_canonical _ hk
  rw [adjust_edits_shape s vw vh vf vft hw w h f c ft]
  rfl

/-- C8 witness at concrete inputs. -/
theorem edits_keys_invariant_witness :
    edKeys (UnsplashImage.init "b" Option.none).edits =
      ["width", "height", "format", "fit"] ∧
    edKeys ((UnsplashImage.init "b" Option.none).adjust (Option.some 5)
        Option.none (Option.some "png") (Option.some ["top"])
        (Option.some "max")).edits = ["width", "height", "format", "fit"] ∧
    edKeys (UnsplashImage.init "b" Option.none).reset.edits =
      ["width", "height", "format", "fit"] ∧
    renderEdits [("width", EVal.int 3), ("height", EVal.null)] =
      renderEdits ([("width", EVal.int 3), ("height", EVal.null)].filter
        (fun kv => kv.2.truthy)) := by
  have t := edits_keys_invariant "b" Option.none (UnsplashImage.init "b" Option.none)
    (Option.some 5) Option.none (Option.some "png") (Option.some ["top"])
    (Option.some "max") [("width", EVal.int 3), ("height", EVal.null)]
  exact ⟨t.1, t.2.1 rfl, t.2.2.1, t.2.2.2⟩

/-- C9: `raw_url` and `user` are set at construction and are not modified by
`adjust` or `reset` (and `url` is a pure function of the state, so reading it
cannot modify them either). -/
theorem base_and_user_immutable (base : String) (user : Option String)
    (s : UnsplashImage) (w h : Option Int) (f : Option String)
    (c : Option (List String)) (ft : Option String) :
    (UnsplashImage.init base user).raw_url = base ∧
    (UnsplashImage.init base user).user = user ∧
    (s.adjust w h f c ft).raw_url = s.raw_url ∧
    (s.adjust w h f c ft).user = s.user ∧
    s.reset.raw_url = s.raw_url ∧
    s.reset.user = s.user := by
  refine ⟨rfl, rfl, rfl, rfl, rfl, rfl⟩

/-- C10: with a non-empty crop the whole rendered string is stripped of every
leading and trailing comma (not only the trailing comma left by the crop
loop); with crop unset or empty no stripping happens; consequently a base URL
with a leading comma is not a verbatim prefix of the rendered URL. -/
theorem url_strips_edge_commas (s : UnsplashImage) (t : String)
    (rest : List String) (r : String) :
    (s.crop = Option.some (t :: rest) →
      s.url = stripCommas (s.raw_url ++ renderEdits s.edits ++ "&crop=" ++
        renderTags (t :: rest))) ∧
    ((s.crop = Option.none ∨ s.crop = Option.some []) →
      s.url = s.raw_url ++ renderEdits s.edits) ∧
    ((UnsplashImage.init ",x" Option.none).adjust Option.none Option.none
        Option.none (Option.some ["faces"]) Option.none).url = "x&crop=faces" ∧
    ((UnsplashImage.init ",x" Option.none).adjust Option.none Option.none
        Option.none (Option.some ["faces"]) Option.none).url ≠ ",x" ++ r := by
  refine ⟨?_, ?_, by decide, ?_⟩
  · intro hc
    obtain ⟨raw, ed, cr, us⟩ := s
    simp only at hc
    subst hc
    rfl
  · rintro (hc | hc) <;>
      (obtain ⟨raw, ed, cr, us⟩ := s; simp only at hc; subst hc; rfl)
  · intro hEq
    have h1 : ((UnsplashImage.init ",x" Option.none).adjust Option.none
        Option.none Option.none (Option.some ["faces"]) Option.none).url =
        "x&crop=faces" := by decide
    rw [h1] at hEq
    have h2 : ("x&crop=faces").data = ((",x" : String) ++ r).data :=
      congrArg String.data hEq
    rw [String.data_append] at h2
    have h3 : (",x" : String).data = [',', 'x'] := by decide
    rw [h3] at h2
    have h4 : ("x&crop=faces").data.head? = Option.some 'x' := by decide
    rw [h2] at h4
    simp at h4

/-- C10 witness at concrete inputs. -/
theorem url_strips_edge_commas_witness :
    UnsplashImage.url ⟨",x", [("width", EVal.null), ("height", EVal.null),
        ("format", EVal.null), ("fit", EVal.null)], Option.some ["faces"],
        Option.none⟩ =
      stripCommas ((",x" : String) ++
        renderEdits [("width", EVal.null), ("height", EVal.null),
          ("format", EVal.null), ("fit", EVal.null)] ++ "&crop=" ++
        renderTags ["faces"]) ∧
    UnsplashImage.url ⟨"y", [("width", EVal.null), ("height", EVal.null),
        ("format", EVal.null), ("fit", EVal.null)], Option.none,
        Option.none⟩ =
      "y" ++ renderEdits [("width", EVal.null), ("height", EVal.null),
        ("format", EVal.null), ("fit", EVal.null)] := by
  constructor
  · exact (url_strips_edge_commas ⟨",x", [("width", EVal.null),
      ("height", EVal.null), ("format", EVal.null), ("fit", EVal.null)],
      Option.some ["faces"], Option.none⟩ "faces" [] "q").1 rfl
  · exact (url_strips_edge_commas ⟨"y", [("width", EVal.null),
      ("height", EVal.null), ("format", EVal.null), ("fit", EVal.null)],
      Option.none, Option.none⟩ "t" [] "q").2.1 (Or.inl rfl)

/-- C2 (amended): `get` returns the parsed body whenever `response.ok` holds,
i.e. for every status below 400 (all 2xx responses included), and returns the
empty mapping for every status of 400 or above (e.g. 404), without raising. -/
theorem get_ok_body_else_empty (c : Unsplash) (send : SendFn)
    (endpoint : String) (params : List (String × String)) :
    ((send (c.requestUrl endpoint) params).status < 400 →
      c.get send endpoint params = (send (c.requestUrl endpoint) params).body) ∧
    (400 ≤ (send (c.requestUrl endpoint) params).status →
      c.get send endpoint params = Json.obj []) := by
  constructor
  · intro h
    simp [Unsplash.get, HttpResponse.ok, h]
  · intro h
    simp [Unsplash.get, HttpResponse.ok, Nat.not_lt.mpr h]

/-- C2 witness at concrete inputs: a 200 response yields its body, a 404
response yields the empty mapping. -/
theorem get_ok_body_else_empty_witness :
    Unsplash.get ⟨"k", "", "https://api.unsplash.com"⟩
      (constSend ⟨200, Json.obj [("id", Json.str "abc")]⟩) "photos/random" [] =
      Json.obj [("id", Json.str "abc")] ∧
    Unsplash.get ⟨"k", "", "https://api.unsplash.com"⟩
      (constSend ⟨404, Json.null⟩) "photos/random" [] = Json.obj [] := by
  constructor
  · exact (get_ok_body_else_empty ⟨"k", "", "https://api.unsplash.com"⟩
      (constSend ⟨200, Json.obj [("id", Json.str "abc")]⟩)
      "photos/random" []).1 (by decide)
  · exact (get_ok_body_else_empty ⟨"k", "", "https://api.unsplash.com"⟩
      (constSend ⟨404, Json.null⟩) "photos/random" []).2 (by decide)

/-- C2 counterexample: a 304 response is not a success (not 2xx), yet `get`
returns its parsed body rather than the empty mapping, because
`requests.Response.ok` is `status_code < 400`, not "status is 2xx". -/
theorem get_not2xx_returns_body_cex :
    Unsplash.get ⟨"k", "", "u"⟩
      (constSend ⟨304, Json.obj [("k", Json.str "v")]⟩) "e" [] =
      Json.obj [("k", Json.str "v")] ∧
    ¬(200 ≤ 304 ∧ 304 < 300) ∧
    Json.obj [("k", Json.str "v")] ≠ Json.obj [] := by
  refine ⟨rfl, by decide, by simp⟩

/-- C3: when the response (delivered successfully, status 200) lacks the keys
`urls`/`raw` or `user`/`name`, `get_random_image` fails (the `KeyError`,
modelled as `none`) instead of returning an image; in particular a failed
request (status 404), whose `get` result is the empty mapping, always makes
`get_random_image` fail. -/
theorem missing_keys_random_image_none (c : Unsplash) (q o : Option String)
    (resp body : Json)
    (hk : jget2 resp "urls" "raw" = Option.none ∨
          jget2 resp "user" "name" = Option.none) :
    c.get_random_image (constSend ⟨200, resp⟩) q o = Option.none ∧
    c.get_random_image (constSend ⟨404, body⟩) q o = Option.none := by
  constructor
  · have hget : c.get (constSend ⟨200, resp⟩) "photos/random"
        (randomImageParams q o) = resp := by
      simp [Unsplash.get, HttpResponse.ok, constSend]
    simp only [Unsplash.get_random_image, hget]
    rcases hk with h | h
    · simp [imageFromResponse, h]
    · cases hj : jget2 resp "urls" "raw" with
      | none => simp [imageFromResponse, hj, h]
      | some v => cases v <;> simp [imageFromResponse, hj, h]
  · have hget : c.get (constSend ⟨404, body⟩) "photos/random"
        (randomImageParams q o) = Json.obj [] := by
      simp [Unsplash.get, HttpResponse.ok, constSend]
    simp only [Unsplash.get_random_image, hget]
    rfl

/-- C3 witness at concrete inputs: the empty mapping lacks both keys. -/
theorem missing_keys_random_image_none_witness :
    Unsplash.get_random_image ⟨"k", "", "u"⟩ (constSend ⟨200, Json.obj []⟩)
      Option.none Option.none = Option.none ∧
    Unsplash.get_random_image ⟨"k", "", "u"⟩ (constSend ⟨404, Json.null⟩)
      Option.none Option.none = Option.none :=
  missing_keys_random_image_none ⟨"k", "", "u"⟩ Option.none Option.none
    (Json.obj []) Json.null (Or.inl rfl)

/-- C5: when the successfully delivered response has string values at
`urls.raw` and `user.name`, `get_random_image` returns an image whose base URL
is `response['urls']['raw']` and whose owner name is `response['user']['name']`. -/
theorem random_image_extracts_fields (c : Unsplash) (q o : Option String)
    (resp : Json) (raw name : String)
    (h1 : jget2 resp "urls" "raw" = Option.some (Json.str raw))
    (h2 : jget2 resp "user" "name" = Option.some (Json.str name)) :
    c.get_random_image (constSend ⟨200, resp⟩) q o =
      Option.some (UnsplashImage.init raw (Option.some name)) ∧
    (UnsplashImage.init raw (Option.some name)).raw_url = raw ∧
    (UnsplashImage.init raw (Option.some name)).user = Option.some name := by
  have hget : c.get (constSend ⟨200, resp⟩) "photos/random"
      (randomImageParams q o) = resp := by
    simp [Unsplash.get, HttpResponse.ok, constSend]
  refine ⟨?_, rfl, rfl⟩
  simp only [Unsplash.get_random_image, hget]
  simp [imageFromResponse, h1, h2]

/-- C5 witness: the spec's mock response yields base URL
`https://img.example/y` and owner name `Alice`. -/
theorem random_image_extracts_fields_witness :
    Unsplash.get_random_image ⟨"k", "", "u"⟩
      (constSend ⟨200, Json.obj
        [("urls", Json.obj [("raw", Json.str "https://img.example/y")]),
         ("user", Json.obj [("name", Json.str "Alice")])]⟩)
      Option.none Option.none =
      Option.some (UnsplashImage.init "https://img.example/y"
        (Option.some "Alice")) ∧
    (UnsplashImage.init "https://img.example/y" (Option.some "Alice")).raw_url =
      "https://img.example/y" ∧
    (UnsplashImage.init "https://img.example/y" (Option.some "Alice")).user =
      Option.some "Alice" :=
  random_image_extracts_fields ⟨"k", "", "u"⟩ Option.none Option.none
    (Json.obj [("urls", Json.obj [("raw", Json.str "https://img.example/y")]),
               ("user", Json.obj [("name", Json.str "Alice")])])
    "https://img.example/y" "Alice" rfl rfl
